import Mathlib

/-!
Shallow embedding of the branch-generation engine of `src/fractal_tree.py`
(class `FractalTree`): the data model (`Branch`, the engine parameters, the
engine state), the growth operations (`plant_trunk`, `grow_one_level`,
`grow_full_tree`, `reset_tree`) and the colour/thickness model
(`get_branch_color`, `interpolate_color`, `calculate_thickness`).

Modelling conventions:
* Python floats are modelled as exact rationals `ℚ`; `math.cos`, `math.sin`
  and `math.radians` are abstract parameters bundled in a `Trig` record,
  since no claim depends on trigonometric identities.
* Python's hex colour strings (for example the default trunk colour) are
  modelled by their decoded channel triple (`Color`); `interpolate_color`'s
  hex parsing and re-encoding become the identity on that triple.
* `random.random()` is modelled as an injectable stream `u : ℕ → ℚ` of
  samples together with a cursor (`rand_idx`) in the engine state; each call
  of the Python function reads the next stream element and advances the
  cursor.
* Python `int(...)` applied to a float is truncation towards zero, `truncQ`.
* The Tk message boxes shown when `grow_one_level` or `grow_full_tree`
  rejects an operation and returns early are modelled as an error code
  returned next to the (unchanged) state.
* Canvas drawing, the widget layout and the image export are UI-only and are
  not part of the embedding.
-/

namespace FractalTree

/-- A decoded hex colour: the three channel values red, green, blue. -/
structure Color where
  r : Int
  g : Int
  b : Int
  deriving DecidableEq, Repr, Inhabited

/-- Python `int(...)` on a rational: truncation towards zero. -/
def truncQ (q : ℚ) : Int :=
  if 0 ≤ q then ⌊q⌋ else ⌈q⌉

/-- One branch record, a `dict` in the Python source (lines 314 and 423). -/
structure Branch where
  id : Nat
  parent_id : Option Nat
  start : ℚ × ℚ
  end_ : ℚ × ℚ
  depth : Nat
  length : ℚ
  angle : ℚ
  thickness : ℚ
  color : Color
  deriving DecidableEq, Repr, Inhabited

/-- The engine-relevant entries of `self.params` (canvas extents, background
colour and the purely cosmetic rendering flags are omitted). -/
structure Params where
  trunk_color : Color
  leaf_colors : List Color
  base_length : ℚ
  angle_variation : ℚ
  length_factor : ℚ
  max_depth : Nat
  trunk_thickness : ℚ
  thickness_factor : ℚ
  randomness : ℚ
  upward_angle : Bool
  deriving DecidableEq, Repr

/-- Abstract interface for `math.cos`, `math.sin` and `math.radians`. -/
structure Trig where
  cos : ℚ → ℚ
  sin : ℚ → ℚ
  radians : ℚ → ℚ

/-- The engine state: `self.branches`, `self.current_depth`, `self.next_id`
and `self.tree_center`, plus the cursor into the random sample stream. -/
structure TreeState where
  branches : List Branch
  current_depth : Nat
  next_id : Nat
  tree_center : ℚ × ℚ
  rand_idx : Nat
  deriving DecidableEq, Repr

/-- The state set up by `FractalTree.__init__`. -/
def initState : TreeState :=
  { branches := [], current_depth := 0, next_id := 0, tree_center := (0, 0),
    rand_idx := 0 }

/-- The two rejection messages `grow_one_level` can show. -/
inductive GrowError where
  | emptyTree
  | maxDepthReached
  deriving DecidableEq, Repr

/-- `FractalTree.interpolate_color` (lines 375-384): per-channel linear
interpolation with each channel truncated by Python `int(...)`; the hex
decode and re-encode of the Python code are the identity on the channel
triple. -/
def interpolate_color (color1 color2 : Color) (factor : ℚ) : Color :=
  { r := truncQ ((color1.r : ℚ) + ((color2.r : ℚ) - (color1.r : ℚ)) * factor),
    g := truncQ ((color1.g : ℚ) + ((color2.g : ℚ) - (color1.g : ℚ)) * factor),
    b := truncQ ((color1.b : ℚ) + ((color2.b : ℚ) - (color1.b : ℚ)) * factor) }

/-- `FractalTree.get_branch_color` (lines 353-373). Python's behaviour on an
empty palette (an index error) is totalised with `default`; every claim
about this function assumes a non-empty palette, where the index arithmetic
of the source (`idx1 = int(color_index)`, non-negative there) is translated
exactly. -/
def get_branch_color (p : Params) (depth : Nat) : Color :=
  if depth = 0 then p.trunk_color
  else if p.max_depth ≤ depth then p.leaf_colors.getLastD default
  else
    let progress : ℚ := (depth : ℚ) / (p.max_depth : ℚ)
    let color_index : ℚ := progress * ((p.leaf_colors.length : ℚ) - 1)
    let idx1 : Nat := (truncQ color_index).toNat
    let idx2 : Nat := min (idx1 + 1) (p.leaf_colors.length - 1)
    let factor : ℚ := color_index - (idx1 : ℚ)
    interpolate_color (p.leaf_colors.getD idx1 default)
      (p.leaf_colors.getD idx2 default) factor

/-- `FractalTree.calculate_thickness` (lines 386-390). -/
def calculate_thickness (p : Params) (depth : Nat) : ℚ :=
  max 1 (p.trunk_thickness * p.thickness_factor ^ depth)

/-- `FractalTree.plant_trunk` (lines 296-327); the canvas calls are not
modelled.  The trunk is created with `id = 0` (the freshly reset counter)
and the counter is then incremented, so the final counter value is 1. -/
def plant_trunk (p : Params) (x y : ℚ) (s : TreeState) : TreeState :=
  let end_y : ℚ := if p.upward_angle then y - p.base_length else y + p.base_length
  let base_angle : ℚ := if p.upward_angle then 270 else 90
  let trunk : Branch :=
    { id := 0, parent_id := none, start := (x, y), end_ := (x, end_y),
      depth := 0, length := p.base_length, angle := base_angle,
      thickness := p.trunk_thickness, color := p.trunk_color }
  { branches := [trunk], current_depth := 0, next_id := 1,
    tree_center := (x, y), rand_idx := s.rand_idx }

/-- The body of the inner loop of `FractalTree.grow_one_level` (lines
409-433): build one child of `parent` for one angle offset.  `u k` and
`u (k + 1)` are the two `random.random()` draws, the angle jitter first and
the length jitter second, exactly in source order. -/
def make_child (T : Trig) (p : Params) (u : ℕ → ℚ) (k : ℕ) (parent : Branch)
    (angle_offset : ℚ) (cur_depth : Nat) (nid : Nat) : Branch :=
  let angle_variation := angle_offset * (1 + (u k - 0.5) * p.randomness * 2)
  let new_angle := parent.angle + angle_variation
  let new_length0 := parent.length * p.length_factor
  let new_length := new_length0 * (1 + (u (k + 1) - 0.5) * p.randomness)
  let rad_angle := T.radians new_angle
  let end_x := parent.end_.1 + T.cos rad_angle * new_length
  let end_y := parent.end_.2 + T.sin rad_angle * new_length
  { id := nid, parent_id := some parent.id, start := parent.end_,
    end_ := (end_x, end_y), depth := cur_depth + 1, length := new_length,
    angle := new_angle, thickness := calculate_thickness p (cur_depth + 1),
    color := get_branch_color p (cur_depth + 1) }

/-- The outer loop of `grow_one_level` (lines 405-436): the children of all
terminal branches in collection order, negative offset child first, threading
the id counter `nid` and the random-stream cursor `k`.  Returns the new
branches together with the final counter and cursor values. -/
def grow_new_branches (T : Trig) (p : Params) (u : ℕ → ℚ) (cur_depth : Nat) :
    List Branch → Nat → Nat → List Branch × Nat × Nat
  | [], nid, k => ([], nid, k)
  | parent :: rest, nid, k =>
    let c1 := make_child T p u k parent (-p.angle_variation) cur_depth nid
    let c2 := make_child T p u (k + 2) parent p.angle_variation cur_depth (nid + 1)
    let r := grow_new_branches T p u cur_depth rest (nid + 2) (k + 4)
    (c1 :: c2 :: r.1, r.2)

/-- `FractalTree.grow_one_level` (lines 392-443).  A rejected call shows a
message box and returns with the state untouched; this is modelled by
returning the error code next to the unchanged state. -/
def grow_one_level (T : Trig) (p : Params) (u : ℕ → ℚ) (s : TreeState) :
    TreeState × Option GrowError :=
  if s.branches.length = 0 then (s, some GrowError.emptyTree)
  else if p.max_depth ≤ s.current_depth then (s, some GrowError.maxDepthReached)
  else
    let terminal_branches := s.branches.filter fun b => b.depth == s.current_depth
    let r := grow_new_branches T p u s.current_depth terminal_branches
      s.next_id s.rand_idx
    ({ s with
        branches := s.branches ++ r.1,
        next_id := r.2.1,
        rand_idx := r.2.2,
        current_depth := s.current_depth + 1 }, none)

/-- The `while` loop of `grow_full_tree` (lines 451-452) with explicit fuel:
every iteration with `current_depth < max_depth` performs one
`grow_one_level`, which (the guard holding and the collection non-empty)
raises `current_depth` by one, so `max_depth - current_depth` units of fuel
replay the loop exactly. -/
def grow_full_aux (T : Trig) (p : Params) (u : ℕ → ℚ) :
    Nat → TreeState → TreeState
  | 0, s => s
  | fuel + 1, s =>
    if s.current_depth < p.max_depth then
      grow_full_aux T p u fuel (grow_one_level T p u s).1
    else s

/-- `FractalTree.grow_full_tree` (lines 445-452). -/
def grow_full_tree (T : Trig) (p : Params) (u : ℕ → ℚ) (s : TreeState) :
    TreeState × Option GrowError :=
  if s.branches.length = 0 then (s, some GrowError.emptyTree)
  else (grow_full_aux T p u (p.max_depth - s.current_depth) s, none)

/-- `FractalTree.reset_tree` (lines 532-540); the UI refresh calls are not
modelled.  `tree_center` is kept, as in the source. -/
def reset_tree (s : TreeState) : TreeState :=
  { branches := [], current_depth := 0, next_id := 0,
    tree_center := s.tree_center, rand_idx := s.rand_idx }

/-- `n` consecutive `grow_one_level` calls, stopping at the first rejected
one (whose error is returned). -/
def grow_levels (T : Trig) (p : Params) (u : ℕ → ℚ) :
    Nat → TreeState → TreeState × Option GrowError
  | 0, s => (s, none)
  | n + 1, s =>
    match grow_one_level T p u s with
    | (s', none) => grow_levels T p u n s'
    | (s', some e) => (s', some e)

/-- One engine call, as issued by the UI layer. -/
inductive Op where
  | plant (x y : ℚ)
  | grow
  | growFull
  | reset
  deriving Repr

/-- Execute one call against the state. -/
def run_op (T : Trig) (p : Params) (u : ℕ → ℚ) (s : TreeState) : Op → TreeState
  | Op.plant x y => plant_trunk p x y s
  | Op.grow => (grow_one_level T p u s).1
  | Op.growFull => (grow_full_tree T p u s).1
  | Op.reset => reset_tree s

/-- Execute a call sequence from a state. -/
def run_ops (T : Trig) (p : Params) (u : ℕ → ℚ) (s : TreeState) :
    List Op → TreeState
  | [] => s
  | op :: ops => run_ops T p u (run_op T p u s op) ops

/-- States reachable from the freshly constructed engine by any sequence of
engine calls, with arbitrary parameters, trig backend and random stream at
each call. -/
inductive Reachable : TreeState → Prop where
  | init : Reachable initState
  | plant (T : Trig) (p : Params) (u : ℕ → ℚ) (x y : ℚ) {s : TreeState} :
      Reachable s → Reachable (plant_trunk p x y s)
  | grow (T : Trig) (p : Params) (u : ℕ → ℚ) {s : TreeState} :
      Reachable s → Reachable (grow_one_level T p u s).1
  | growFull (T : Trig) (p : Params) (u : ℕ → ℚ) {s : TreeState} :
      Reachable s → Reachable (grow_full_tree T p u s).1
  | reset {s : TreeState} : Reachable s → Reachable (reset_tree s)

/-- Spec formula (claim C1): jittered angle offset and the child angle,
written exactly as in the specification text. -/
def specChildAngle (p : Params) (parentAngle angle_offset U : ℚ) : ℚ :=
  parentAngle + angle_offset * (1 + (U - 0.5) * 2 * p.randomness)

/-- Spec formula (claim C1): jittered child length, with half the jitter
range of the angle jitter, written exactly as in the specification text. -/
def specChildLength (p : Params) (parentLength U2 : ℚ) : ℚ :=
  parentLength * p.length_factor * (1 + (U2 - 0.5) * p.randomness)

/-- Spec formula (claim C1): the child endpoint from the parent's endpoint
and the child's jittered angle and length. -/
def specChildEnd (T : Trig) (pEnd : ℚ × ℚ) (angle length : ℚ) : ℚ × ℚ :=
  (pEnd.1 + length * T.cos (T.radians angle),
   pEnd.2 + length * T.sin (T.radians angle))

/-- Spec formula (claim C5): per-channel linear interpolation between two
colours, each channel rounded towards zero. -/
def specLerpColor (c1 c2 : Color) (fraction : ℚ) : Color :=
  { r := truncQ ((c1.r : ℚ) + ((c2.r : ℚ) - (c1.r : ℚ)) * fraction),
    g := truncQ ((c1.g : ℚ) + ((c2.g : ℚ) - (c1.g : ℚ)) * fraction),
    b := truncQ ((c1.b : ℚ) + ((c2.b : ℚ) - (c1.b : ℚ)) * fraction) }

/-- Spec formula (claim C5), middle case: position, index pair (with `floor`)
and fraction, then the per-channel interpolation. -/
def specColorAtMid (p : Params) (depth : Nat) : Color :=
  let position : ℚ :=
    ((depth : ℚ) / (p.max_depth : ℚ)) * ((p.leaf_colors.length : ℚ) - 1)
  let lowerIndex : Nat := (⌊position⌋).toNat
  let upperIndex : Nat := min (lowerIndex + 1) (p.leaf_colors.length - 1)
  let fraction : ℚ := position - (lowerIndex : ℚ)
  specLerpColor (p.leaf_colors.getD lowerIndex default)
    (p.leaf_colors.getD upperIndex default) fraction

/-- A concrete trig backend used to evaluate the model on sample inputs. -/
def sampleTrig : Trig :=
  { cos := fun q => q, sin := fun q => 1 - q, radians := fun q => q }

/-- The default trunk colour of the source, decoded. -/
def sampleTrunkColor : Color := ⟨124, 45, 18⟩

/-- The first default leaf colour of the source, decoded. -/
def sampleLeaf1 : Color := ⟨22, 101, 52⟩

/-- The second default leaf colour of the source, decoded. -/
def sampleLeaf2 : Color := ⟨34, 197, 94⟩

/-- The third default leaf colour of the source, decoded. -/
def sampleLeaf3 : Color := ⟨245, 158, 11⟩

/-- The default parameters of the source, with a small `max_depth` so that
sample evaluations stay small. -/
def sampleParams : Params :=
  { trunk_color := sampleTrunkColor,
    leaf_colors := [sampleLeaf1, sampleLeaf2, sampleLeaf3],
    base_length := 180, angle_variation := 35, length_factor := mkRat 65 100,
    max_depth := 3, trunk_thickness := 20, thickness_factor := mkRat 75 100,
    randomness := mkRat 1 10, upward_angle := true }

/-- The sample parameters with the randomness magnitude set to zero. -/
def sampleParamsZero : Params := { sampleParams with randomness := 0 }

/-- The sample parameters with a single-entry palette. -/
def sampleParamsSingle : Params := { sampleParams with leaf_colors := [sampleLeaf2] }

/-- A concrete random sample stream. -/
def sampleU : ℕ → ℚ := fun k => 1 / ((k : ℚ) + 2)

end FractalTree

namespace FractalTree

@[simp] theorem make_child_id (T : Trig) (p : Params) (u : ℕ → ℚ) (k : ℕ)
    (parent : Branch) (off : ℚ) (cur nid : Nat) :
    (make_child T p u k parent off cur nid).id = nid := rfl

@[simp] theorem make_child_parent_id (T : Trig) (p : Params) (u : ℕ → ℚ) (k : ℕ)
    (parent : Branch) (off : ℚ) (cur nid : Nat) :
    (make_child T p u k parent off cur nid).parent_id = some parent.id := rfl

@[simp] theorem make_child_depth (T : Trig) (p : Params) (u : ℕ → ℚ) (k : ℕ)
    (parent : Branch) (off : ℚ) (cur nid : Nat) :
    (make_child T p u k parent off cur nid).depth = cur + 1 := rfl

@[simp] theorem make_child_start (T : Trig) (p : Params) (u : ℕ → ℚ) (k : ℕ)
    (parent : Branch) (off : ℚ) (cur nid : Nat) :
    (make_child T p u k parent off cur nid).start = parent.end_ := rfl

theorem make_child_angle (T : Trig) (p : Params) (u : ℕ → ℚ) (k : ℕ)
    (parent : Branch) (off : ℚ) (cur nid : Nat) :
    (make_child T p u k parent off cur nid).angle
      = parent.angle + off * (1 + (u k - 0.5) * p.randomness * 2) := rfl

theorem make_child_length (T : Trig) (p : Params) (u : ℕ → ℚ) (k : ℕ)
    (parent : Branch) (off : ℚ) (cur nid : Nat) :
    (make_child T p u k parent off cur nid).length
      = parent.length * p.length_factor * (1 + (u (k + 1) - 0.5) * p.randomness) := rfl

theorem make_child_end (T : Trig) (p : Params) (u : ℕ → ℚ) (k : ℕ)
    (parent : Branch) (off : ℚ) (cur nid : Nat) :
    (make_child T p u k parent off cur nid).end_
      = (parent.end_.1
           + T.cos (T.radians (make_child T p u k parent off cur nid).angle)
             * (make_child T p u k parent off cur nid).length,
         parent.end_.2
           + T.sin (T.radians (make_child T p u k parent off cur nid).angle)
             * (make_child T p u k parent off cur nid).length) := rfl

theorem grow_new_branches_length (T : Trig) (p : Params) (u : ℕ → ℚ) (cur : Nat) :
    ∀ (t : List Branch) (nid k : Nat),
      (grow_new_branches T p u cur t nid k).1.length = 2 * t.length := by
  intro t
  induction t with
  | nil => intro nid k; simp [grow_new_branches]
  | cons parent rest ih =>
    intro nid k
    simp only [grow_new_branches, List.length_cons, ih]
    omega

theorem grow_new_branches_counters (T : Trig) (p : Params) (u : ℕ → ℚ) (cur : Nat) :
    ∀ (t : List Branch) (nid k : Nat),
      (grow_new_branches T p u cur t nid k).2.1 = nid + 2 * t.length ∧
      (grow_new_branches T p u cur t nid k).2.2 = k + 4 * t.length := by
  intro t
  induction t with
  | nil => intro nid k; simp [grow_new_branches]
  | cons parent rest ih =>
    intro nid k
    have h := ih (nid + 2) (k + 4)
    simp only [grow_new_branches, List.length_cons, h.1, h.2]
    omega

theorem grow_new_branches_depth (T : Trig) (p : Params) (u : ℕ → ℚ) (cur : Nat) :
    ∀ (t : List Branch) (nid k : Nat) (b : Branch),
      b ∈ (grow_new_branches T p u cur t nid k).1 → b.depth = cur + 1 := by
  intro t
  induction t with
  | nil => intro nid k b hb; simp [grow_new_branches] at hb
  | cons parent rest ih =>
    intro nid k b hb
    simp only [grow_new_branches, List.mem_cons] at hb
    rcases hb with h | h | h
    · rw [h]; exact make_child_depth ..
    · rw [h]; exact make_child_depth ..
    · exact ih (nid + 2) (k + 4) b h

theorem grow_new_branches_parent (T : Trig) (p : Params) (u : ℕ → ℚ) (cur : Nat) :
    ∀ (t : List Branch) (nid k : Nat) (b : Branch),
      b ∈ (grow_new_branches T p u cur t nid k).1 →
      ∃ pb ∈ t, b.parent_id = some pb.id := by
  intro t
  induction t with
  | nil => intro nid k b hb; simp [grow_new_branches] at hb
  | cons parent rest ih =>
    intro nid k b hb
    simp only [grow_new_branches, List.mem_cons] at hb
    rcases hb with h | h | h
    · exact ⟨parent, List.mem_cons_self .., by rw [h]; exact make_child_parent_id ..⟩
    · exact ⟨parent, List.mem_cons_self .., by rw [h]; exact make_child_parent_id ..⟩
    · obtain ⟨pb, hpb, hid⟩ := ih (nid + 2) (k + 4) b h
      exact ⟨pb, List.mem_cons_of_mem _ hpb, hid⟩

theorem grow_new_branches_getD_id (T : Trig) (p : Params) (u : ℕ → ℚ) (cur : Nat) :
    ∀ (t : List Branch) (nid k j : Nat), j < 2 * t.length →
      ((grow_new_branches T p u cur t nid k).1.getD j default).id = nid + j := by
  intro t
  induction t with
  | nil => intro nid k j hj; simp at hj
  | cons parent rest ih =>
    intro nid k j hj
    match j with
    | 0 => simp [grow_new_branches]
    | 1 => simp [grow_new_branches]
    | j + 2 =>
      have hj' : j < 2 * rest.length := by simp at hj; omega
      have h := ih (nid + 2) (k + 4) j hj'
      simp only [grow_new_branches, List.getD_cons_succ]
      rw [h]
      omega

theorem grow_new_branches_getD_pair (T : Trig) (p : Params) (u : ℕ → ℚ) (cur : Nat) :
    ∀ (t : List Branch) (nid k j : Nat), j < t.length →
      (grow_new_branches T p u cur t nid k).1.getD (2 * j) default
        = make_child T p u (k + 4 * j) (t.getD j default) (-p.angle_variation)
            cur (nid + 2 * j) ∧
      (grow_new_branches T p u cur t nid k).1.getD (2 * j + 1) default
        = make_child T p u (k + 4 * j + 2) (t.getD j default) p.angle_variation
            cur (nid + 2 * j + 1) := by
  intro t
  induction t with
  | nil => intro nid k j hj; simp at hj
  | cons parent rest ih =>
    intro nid k j hj
    match j with
    | 0 => simp [grow_new_branches]
    | j + 1 =>
      have hj' : j < rest.length := by simp at hj; omega
      have h := ih (nid + 2) (k + 4) j hj'
      have a1 : k + 4 + 4 * j = k + 4 * (j + 1) := by omega
      have a2 : nid + 2 + 2 * j = nid + 2 * (j + 1) := by omega
      have a3 : nid + 2 + 2 * j + 1 = nid + 2 * (j + 1) + 1 := by omega
      have a4 : k + 4 + 4 * j + 2 = k + 4 * (j + 1) + 2 := by omega
      have h1 := h.1
      rw [a1, a2] at h1
      have h2 := h.2
      rw [a4, a3] at h2
      constructor
      · have e1 : 2 * (j + 1) = 2 * j + 1 + 1 := by omega
        conv_lhs => rw [e1]
        simp only [grow_new_branches, List.getD_cons_succ]
        exact h1
      · have e2 : 2 * (j + 1) + 1 = 2 * j + 1 + 1 + 1 := by omega
        conv_lhs => rw [e2]
        simp only [grow_new_branches, List.getD_cons_succ]
        exact h2

theorem getD_append_len {α : Type} (l1 l2 : List α) (n : Nat) (d : α) :
    (l1 ++ l2).getD (l1.length + n) d = l2.getD n d := by
  induction l1 with
  | nil => simp
  | cons a l ih =>
    have e : (a :: l).length + n = (l.length + n) + 1 := by simp; omega
    rw [e]
    simpa [List.getD_cons_succ] using ih

theorem getD_append_left {α : Type} (l1 l2 : List α) (n : Nat) (d : α)
    (h : n < l1.length) :
    (l1 ++ l2).getD n d = l1.getD n d := by
  induction l1 generalizing n with
  | nil => simp at h
  | cons a l ih =>
    match n with
    | 0 => simp
    | n + 1 =>
      have h' : n < l.length := by simp at h; omega
      simpa [List.getD_cons_succ] using ih n h'

end FractalTree

namespace FractalTree

theorem grow_one_level_empty (T : Trig) (p : Params) (u : ℕ → ℚ) (s : TreeState)
    (h : s.branches = []) : grow_one_level T p u s = (s, some GrowError.emptyTree) := by
  simp [grow_one_level, h]

theorem grow_one_level_maxed (T : Trig) (p : Params) (u : ℕ → ℚ) (s : TreeState)
    (h : s.branches ≠ []) (h2 : p.max_depth ≤ s.current_depth) :
    grow_one_level T p u s = (s, some GrowError.maxDepthReached) := by
  have h1 : ¬ s.branches.length = 0 := by
    simpa [List.length_eq_zero] using h
  simp [grow_one_level, h1, h2]

theorem grow_one_level_ok (T : Trig) (p : Params) (u : ℕ → ℚ) (s : TreeState)
    (h : s.branches ≠ []) (h2 : s.current_depth < p.max_depth) :
    grow_one_level T p u s =
      ({ branches := s.branches ++
            (grow_new_branches T p u s.current_depth
              (s.branches.filter fun b => b.depth == s.current_depth)
              s.next_id s.rand_idx).1,
         current_depth := s.current_depth + 1,
         next_id := (grow_new_branches T p u s.current_depth
              (s.branches.filter fun b => b.depth == s.current_depth)
              s.next_id s.rand_idx).2.1,
         tree_center := s.tree_center,
         rand_idx := (grow_new_branches T p u s.current_depth
              (s.branches.filter fun b => b.depth == s.current_depth)
              s.next_id s.rand_idx).2.2 }, none) := by
  have h1 : ¬ s.branches.length = 0 := by
    simpa [List.length_eq_zero] using h
  have h2' : ¬ p.max_depth ≤ s.current_depth := by omega
  simp [grow_one_level, h1, h2']

/-- C3: `plant_trunk(x, y)` resets the branch collection to exactly one
branch, the trunk, with id 0, no parent, depth 0, start `(x, y)`, endpoint
`(x, y - baseLength)` and angle 270 when growth is upward or
`(x, y + baseLength)` and angle 90 when downward, length `baseLength`,
thickness `trunkThickness` and colour `trunkColor`; the depth counter is
reset to 0, the planting point is recorded, and the call never fails (it is
a total function of the model). -/
theorem C3_plant_trunk_effect (p : Params) (x y : ℚ) (s : TreeState) :
    (plant_trunk p x y s).branches.length = 1 ∧
    ((plant_trunk p x y s).branches.getD 0 default).id = 0 ∧
    ((plant_trunk p x y s).branches.getD 0 default).parent_id = none ∧
    ((plant_trunk p x y s).branches.getD 0 default).depth = 0 ∧
    ((plant_trunk p x y s).branches.getD 0 default).start = (x, y) ∧
    ((plant_trunk p x y s).branches.getD 0 default).end_
      = (x, if p.upward_angle then y - p.base_length else y + p.base_length) ∧
    ((plant_trunk p x y s).branches.getD 0 default).angle
      = (if p.upward_angle then (270 : ℚ) else 90) ∧
    ((plant_trunk p x y s).branches.getD 0 default).length = p.base_length ∧
    ((plant_trunk p x y s).branches.getD 0 default).thickness = p.trunk_thickness ∧
    ((plant_trunk p x y s).branches.getD 0 default).color = p.trunk_color ∧
    (plant_trunk p x y s).current_depth = 0 ∧
    (plant_trunk p x y s).next_id = 1 ∧
    (plant_trunk p x y s).tree_center = (x, y) :=
  ⟨rfl, rfl, rfl, rfl, rfl, rfl, rfl, rfl, rfl, rfl, rfl, rfl, rfl⟩

/-- C4: `grow_one_level` is rejected with the empty-tree error exactly when
the branch collection is empty, and (when non-empty) with the max-depth
error exactly when the depth counter has reached `max_depth`; every rejected
call leaves the engine state exactly as before. -/
theorem C4_grow_error_conditions (T : Trig) (p : Params) (u : ℕ → ℚ)
    (s : TreeState) :
    ((grow_one_level T p u s).2 = some GrowError.emptyTree ↔ s.branches = []) ∧
    (s.branches ≠ [] →
      ((grow_one_level T p u s).2 = some GrowError.maxDepthReached ↔
        p.max_depth ≤ s.current_depth)) ∧
    (∀ e : GrowError, (grow_one_level T p u s).2 = some e →
      (grow_one_level T p u s).1 = s) := by
  by_cases h : s.branches = []
  · rw [grow_one_level_empty T p u s h]
    simp [h]
  · by_cases h2 : p.max_depth ≤ s.current_depth
    · rw [grow_one_level_maxed T p u s h h2]
      simp [h, h2]
    · rw [grow_one_level_ok T p u s h (by omega)]
      simp [h, h2]

theorem C4_witness :
    (grow_one_level sampleTrig sampleParams sampleU initState).2
        = some GrowError.emptyTree ∧
    (grow_one_level sampleTrig sampleParams sampleU initState).1 = initState := by
  have h := C4_grow_error_conditions sampleTrig sampleParams sampleU initState
  refine ⟨h.1.mpr rfl, h.2.2 GrowError.emptyTree (h.1.mpr rfl)⟩

/-- C6: `calculate_thickness depth` equals
`max 1 (trunk_thickness * thickness_factor ^ depth)`; it is always at least
1, and for `0 < thickness_factor < 1` and positive trunk thickness it is
monotonically non-increasing in the depth. -/
theorem C6_thickness (p : Params) :
    (∀ d : Nat, calculate_thickness p d
        = max 1 (p.trunk_thickness * p.thickness_factor ^ d)) ∧
    (∀ d : Nat, (1 : ℚ) ≤ calculate_thickness p d) ∧
    (0 < p.thickness_factor → p.thickness_factor < 1 → 0 < p.trunk_thickness →
      ∀ d1 d2 : Nat, d1 ≤ d2 →
        calculate_thickness p d2 ≤ calculate_thickness p d1) := by
  refine ⟨fun d => rfl, fun d => le_max_left 1 _, ?_⟩
  intro hf0 hf1 ht d1 d2 hd
  have hpow : p.thickness_factor ^ d2 ≤ p.thickness_factor ^ d1 :=
    pow_le_pow_of_le_one (le_of_lt hf0) (le_of_lt hf1) hd
  have hmul : p.trunk_thickness * p.thickness_factor ^ d2
      ≤ p.trunk_thickness * p.thickness_factor ^ d1 :=
    mul_le_mul_of_nonneg_left hpow (le_of_lt ht)
  exact max_le_max (le_refl 1) hmul

theorem C6_witness :
    (1 : ℚ) ≤ calculate_thickness sampleParams 5 ∧
    calculate_thickness sampleParams 4 ≤ calculate_thickness sampleParams 1 := by
  have h := C6_thickness sampleParams
  exact ⟨h.2.1 5, h.2.2 (by decide) (by decide) (by decide) 1 4 (by decide)⟩

end FractalTree

namespace FractalTree

/-- C1: in every successful `grow_one_level` call, the `j`-th terminal parent
produces exactly two children, stored after the old collection at offsets
`2j` and `2j + 1`; each child starts at the parent's endpoint, its angle is
the parent's angle plus the jittered offset
`offset * (1 + (U - 0.5) * 2 * randomness)` for offset `-A` resp. `+A`
(`U` the per-child angle sample), its length is
`parent.length * length_factor * (1 + (U2 - 0.5) * randomness)` (an
independent sample `U2`, half the angle jitter range), and its endpoint is
the parent's endpoint displaced by the jittered length along the jittered
angle. -/
theorem C1_child_geometry (T : Trig) (p : Params) (u : ℕ → ℚ) (s : TreeState)
    (j : Nat) (parent c1 c2 : Branch)
    (hparent : parent =
      (s.branches.filter fun b => b.depth == s.current_depth).getD j default)
    (hc1 : c1 = (grow_one_level T p u s).1.branches.getD
      (s.branches.length + 2 * j) default)
    (hc2 : c2 = (grow_one_level T p u s).1.branches.getD
      (s.branches.length + 2 * j + 1) default)
    (hok : (grow_one_level T p u s).2 = none)
    (hj : j < (s.branches.filter fun b => b.depth == s.current_depth).length) :
    (c1.start = parent.end_ ∧
     c1.angle = specChildAngle p parent.angle (-p.angle_variation)
       (u (s.rand_idx + 4 * j)) ∧
     c1.length = specChildLength p parent.length (u (s.rand_idx + 4 * j + 1)) ∧
     c1.end_ = specChildEnd T parent.end_ c1.angle c1.length) ∧
    (c2.start = parent.end_ ∧
     c2.angle = specChildAngle p parent.angle p.angle_variation
       (u (s.rand_idx + 4 * j + 2)) ∧
     c2.length = specChildLength p parent.length (u (s.rand_idx + 4 * j + 3)) ∧
     c2.end_ = specChildEnd T parent.end_ c2.angle c2.length) := by
  have hemp : s.branches ≠ [] := by
    intro h
    rw [grow_one_level_empty T p u s h] at hok
    simp at hok
  have hmax : s.current_depth < p.max_depth := by
    by_contra h
    rw [grow_one_level_maxed T p u s hemp (by omega)] at hok
    simp at hok
  have hgrow := grow_one_level_ok T p u s hemp hmax
  have hpair := grow_new_branches_getD_pair T p u s.current_depth
    (s.branches.filter fun b => b.depth == s.current_depth)
    s.next_id s.rand_idx j hj
  have hc1' : c1 = make_child T p u (s.rand_idx + 4 * j) parent
      (-p.angle_variation) s.current_depth (s.next_id + 2 * j) := by
    rw [hc1, hgrow]
    rw [getD_append_len]
    rw [hpair.1, hparent]
  have hc2' : c2 = make_child T p u (s.rand_idx + 4 * j + 2) parent
      p.angle_variation s.current_depth (s.next_id + 2 * j + 1) := by
    rw [hc2, hgrow]
    have e : s.branches.length + 2 * j + 1 = s.branches.length + (2 * j + 1) := by
      omega
    rw [e, getD_append_len]
    rw [hpair.2, hparent]
  subst hc1' hc2'
  refine ⟨⟨make_child_start .., ?_, ?_, ?_⟩, ⟨make_child_start .., ?_, ?_, ?_⟩⟩
  · rw [make_child_angle]
    simp only [specChildAngle]
    ring
  · rw [make_child_length]
    simp only [specChildLength]
  · rw [make_child_end]
    simp only [specChildEnd, Prod.mk.injEq]
    constructor <;> ring
  · rw [make_child_angle]
    simp only [specChildAngle]
    ring
  · rw [make_child_length]
    simp only [specChildLength]
  · rw [make_child_end]
    simp only [specChildEnd, Prod.mk.injEq]
    constructor <;> ring

theorem C1_witness :
    (grow_one_level sampleTrig sampleParams sampleU
        (plant_trunk sampleParams 600 700 initState)).2 = none ∧
    0 < ((plant_trunk sampleParams 600 700 initState).branches.filter
        fun b => b.depth ==
          (plant_trunk sampleParams 600 700 initState).current_depth).length ∧
    (((grow_one_level sampleTrig sampleParams sampleU
          (plant_trunk sampleParams 600 700 initState)).1.branches.getD
          ((plant_trunk sampleParams 600 700 initState).branches.length + 2 * 0)
          default).start
        = (((plant_trunk sampleParams 600 700 initState).branches.filter
            fun b => b.depth ==
              (plant_trunk sampleParams 600 700 initState).current_depth).getD
            0 default).end_ ∧
      ((grow_one_level sampleTrig sampleParams sampleU
          (plant_trunk sampleParams 600 700 initState)).1.branches.getD
          ((plant_trunk sampleParams 600 700 initState).branches.length + 2 * 0)
          default).angle
        = specChildAngle sampleParams
            (((plant_trunk sampleParams 600 700 initState).branches.filter
              fun b => b.depth ==
                (plant_trunk sampleParams 600 700 initState).current_depth).getD
              0 default).angle
            (-sampleParams.angle_variation)
            (sampleU ((plant_trunk sampleParams 600 700 initState).rand_idx
              + 4 * 0)) ∧
      ((grow_one_level sampleTrig sampleParams sampleU
          (plant_trunk sampleParams 600 700 initState)).1.branches.getD
          ((plant_trunk sampleParams 600 700 initState).branches.length + 2 * 0)
          default).length
        = specChildLength sampleParams
            (((plant_trunk sampleParams 600 700 initState).branches.filter
              fun b => b.depth ==
                (plant_trunk sampleParams 600 700 initState).current_depth).getD
              0 default).length
            (sampleU ((plant_trunk sampleParams 600 700 initState).rand_idx
              + 4 * 0 + 1)) ∧
      ((grow_one_level sampleTrig sampleParams sampleU
          (plant_trunk sampleParams 600 700 initState)).1.branches.getD
          ((plant_trunk sampleParams 600 700 initState).branches.length + 2 * 0)
          default).end_
        = specChildEnd sampleTrig
            (((plant_trunk sampleParams 600 700 initState).branches.filter
              fun b => b.depth ==
                (plant_trunk sampleParams 600 700 initState).current_depth).getD
              0 default).end_
            ((grow_one_level sampleTrig sampleParams sampleU
              (plant_trunk sampleParams 600 700 initState)).1.branches.getD
              ((plant_trunk sampleParams 600 700 initState).branches.length
                + 2 * 0) default).angle
            ((grow_one_level sampleTrig sampleParams sampleU
              (plant_trunk sampleParams 600 700 initState)).1.branches.getD
              ((plant_trunk sampleParams 600 700 initState).branches.length
                + 2 * 0) default).length) ∧
    (((grow_one_level sampleTrig sampleParams sampleU
          (plant_trunk sampleParams 600 700 initState)).1.branches.getD
          ((plant_trunk sampleParams 600 700 initState).branches.length
            + 2 * 0 + 1) default).start
        = (((plant_trunk sampleParams 600 700 initState).branches.filter
            fun b => b.depth ==
              (plant_trunk sampleParams 600 700 initState).current_depth).getD
            0 default).end_ ∧
      ((grow_one_level sampleTrig sampleParams sampleU
          (plant_trunk sampleParams 600 700 initState)).1.branches.getD
          ((plant_trunk sampleParams 600 700 initState).branches.length
            + 2 * 0 + 1) default).angle
        = specChildAngle sampleParams
            (((plant_trunk sampleParams 600 700 initState).branches.filter
              fun b => b.depth ==
                (plant_trunk sampleParams 600 700 initState).current_depth).getD
              0 default).angle
            sampleParams.angle_variation
            (sampleU ((plant_trunk sampleParams 600 700 initState).rand_idx
              + 4 * 0 + 2)) ∧
      ((grow_one_level sampleTrig sampleParams sampleU
          (plant_trunk sampleParams 600 700 initState)).1.branches.getD
          ((plant_trunk sampleParams 600 700 initState).branches.length
            + 2 * 0 + 1) default).length
        = specChildLength sampleParams
            (((plant_trunk sampleParams 600 700 initState).branches.filter
              fun b => b.depth ==
                (plant_trunk sampleParams 600 700 initState).current_depth).getD
              0 default).length
            (sampleU ((plant_trunk sampleParams 600 700 initState).rand_idx
              + 4 * 0 + 3)) ∧
      ((grow_one_level sampleTrig sampleParams sampleU
          (plant_trunk sampleParams 600 700 initState)).1.branches.getD
          ((plant_trunk sampleParams 600 700 initState).branches.length
            + 2 * 0 + 1) default).end_
        = specChildEnd sampleTrig
            (((plant_trunk sampleParams 600 700 initState).branches.filter
              fun b => b.depth ==
                (plant_trunk sampleParams 600 700 initState).current_depth).getD
              0 default).end_
            ((grow_one_level sampleTrig sampleParams sampleU
              (plant_trunk sampleParams 600 700 initState)).1.branches.getD
              ((plant_trunk sampleParams 600 700 initState).branches.length
                + 2 * 0 + 1) default).angle
            ((grow_one_level sampleTrig sampleParams sampleU
              (plant_trunk sampleParams 600 700 initState)).1.branches.getD
              ((plant_trunk sampleParams 600 700 initState).branches.length
                + 2 * 0 + 1) default).length) := by
  have h := C1_child_geometry sampleTrig sampleParams sampleU
    (plant_trunk sampleParams 600 700 initState) 0 _ _ _ rfl rfl rfl
    (by decide) (by decide)
  exact ⟨by decide, by decide, h.1, h.2⟩

end FractalTree

namespace FractalTree

theorem sum_range_two_pow (n : Nat) :
    (∑ k ∈ Finset.range n, 2 ^ k) = 2 ^ n - 1 := by
  induction n with
  | zero => simp
  | succ n ih =>
    rw [Finset.sum_range_succ, ih]
    have h1 : 1 ≤ 2 ^ n := Nat.one_le_two_pow
    have h2 : 2 ^ (n + 1) = 2 ^ n * 2 := pow_succ 2 n
    omega

theorem grow_new_branches_filter_count (T : Trig) (p : Params) (u : ℕ → ℚ)
    (cur : Nat) (t : List Branch) (nid k : Nat) (d : Nat) :
    ((grow_new_branches T p u cur t nid k).1.filter
        fun b => b.depth == d).length
      = if d = cur + 1 then 2 * t.length else 0 := by
  by_cases hd : d = cur + 1
  · subst hd
    rw [if_pos rfl]
    have hself : (grow_new_branches T p u cur t nid k).1.filter
        (fun b => b.depth == cur + 1) = (grow_new_branches T p u cur t nid k).1 := by
      apply List.filter_eq_self.mpr
      intro b hb
      have := grow_new_branches_depth T p u cur t nid k b hb
      simp [this]
    rw [hself, grow_new_branches_length]
  · rw [if_neg hd]
    have hnil : (grow_new_branches T p u cur t nid k).1.filter
        (fun b => b.depth == d) = [] := by
      apply List.filter_eq_nil_iff.mpr
      intro b hb
      have := grow_new_branches_depth T p u cur t nid k b hb
      simp [this]
      omega
    rw [hnil]
    rfl

theorem grow_levels_from (T : Trig) (p : Params) (u : ℕ → ℚ) (n : Nat) :
    ∀ s : TreeState,
      (∀ k : Nat, ((s.branches.filter fun b => b.depth == k).length)
          = if k ≤ s.current_depth then 2 ^ k else 0) →
      s.branches.length = 2 ^ (s.current_depth + 1) - 1 →
      s.current_depth + n ≤ p.max_depth →
      (grow_levels T p u n s).2 = none ∧
      (grow_levels T p u n s).1.current_depth = s.current_depth + n ∧
      (∀ k : Nat, (((grow_levels T p u n s).1.branches.filter
          fun b => b.depth == k).length)
          = if k ≤ s.current_depth + n then 2 ^ k else 0) ∧
      (grow_levels T p u n s).1.branches.length
          = 2 ^ (s.current_depth + n + 1) - 1 := by
  induction n with
  | zero =>
    intro s hc hl hd
    exact ⟨rfl, by simp [grow_levels], fun k => by simpa [grow_levels] using hc k,
      by simpa [grow_levels] using hl⟩
  | succ n ih =>
    intro s hc hl hd
    have htwo : 2 ≤ 2 ^ (s.current_depth + 1) := by
      have h := Nat.pow_le_pow_right (show 1 ≤ 2 by omega)
        (show 1 ≤ s.current_depth + 1 by omega)
      simpa using h
    have hne : s.branches ≠ [] := by
      intro h
      rw [h] at hl
      simp at hl
      omega
    have hmax : s.current_depth < p.max_depth := by omega
    have hgrow := grow_one_level_ok T p u s hne hmax
    have hterm : (s.branches.filter fun b => b.depth == s.current_depth).length
        = 2 ^ s.current_depth := by
      have h := hc s.current_depth
      simpa using h
    have hb1 : (grow_one_level T p u s).1.branches
        = s.branches ++ (grow_new_branches T p u s.current_depth
            (s.branches.filter fun b => b.depth == s.current_depth)
            s.next_id s.rand_idx).1 := by
      rw [hgrow]
    have hd1 : (grow_one_level T p u s).1.current_depth = s.current_depth + 1 := by
      rw [hgrow]
    have hc1 : ∀ k : Nat,
        (((grow_one_level T p u s).1.branches.filter
          fun b => b.depth == k).length)
          = if k ≤ (grow_one_level T p u s).1.current_depth then 2 ^ k else 0 := by
      intro k
      rw [hb1, hd1, List.filter_append, List.length_append,
        grow_new_branches_filter_count, hterm, hc k]
      by_cases h2 : k = s.current_depth + 1
      · subst h2
        rw [if_neg (by omega), if_pos rfl, if_pos (le_refl _)]
        have hp : 2 ^ (s.current_depth + 1) = 2 ^ s.current_depth * 2 :=
          pow_succ 2 _
        omega
      · by_cases h : k ≤ s.current_depth
        · rw [if_pos h, if_neg h2, if_pos (by omega)]
          omega
        · rw [if_neg h, if_neg h2, if_neg (by omega)]
    have hl1 : (grow_one_level T p u s).1.branches.length
        = 2 ^ ((grow_one_level T p u s).1.current_depth + 1) - 1 := by
      rw [hb1, hd1, List.length_append, grow_new_branches_length, hterm, hl]
      have hp1 : 2 ^ (s.current_depth + 1) = 2 ^ s.current_depth * 2 := pow_succ 2 _
      have hp2 : 2 ^ (s.current_depth + 1 + 1) = 2 ^ (s.current_depth + 1) * 2 :=
        pow_succ 2 _
      omega
    have hrec := ih ((grow_one_level T p u s).1) hc1 hl1 (by rw [hd1]; omega)
    have hred : grow_levels T p u (n + 1) s
        = grow_levels T p u n (grow_one_level T p u s).1 := by
      conv_lhs => rw [grow_levels]
      rw [hgrow]
    rw [hred]
    refine ⟨hrec.1, ?_, ?_, ?_⟩
    · rw [hrec.2.1, hd1]
      omega
    · intro k
      rw [hrec.2.2.1 k, hd1]
      have e : s.current_depth + 1 + n = s.current_depth + (n + 1) := by omega
      rw [e]
    · rw [hrec.2.2.2, hd1]
      have e : s.current_depth + 1 + n + 1 = s.current_depth + (n + 1) + 1 := by
        omega
      rw [e]

/-- C2: for any configuration, planting a trunk and then calling
`grow_one_level` exactly `max_depth` times succeeds at every step; afterwards
there are `2 ^ k` branches at each depth `k ≤ max_depth`, the total number of
branches is the geometric sum of `2 ^ k` for `k = 0 .. max_depth`, and the
depth counter equals `max_depth`. -/
theorem C2_full_growth_count (T : Trig) (p : Params) (u : ℕ → ℚ) (x y : ℚ)
    (s : TreeState) :
    (grow_levels T p u p.max_depth (plant_trunk p x y s)).2 = none ∧
    (grow_levels T p u p.max_depth (plant_trunk p x y s)).1.current_depth
      = p.max_depth ∧
    (∀ k : Nat, k ≤ p.max_depth →
      (((grow_levels T p u p.max_depth (plant_trunk p x y s)).1.branches.filter
        fun b => b.depth == k).length) = 2 ^ k) ∧
    (grow_levels T p u p.max_depth (plant_trunk p x y s)).1.branches.length
      = ∑ k ∈ Finset.range (p.max_depth + 1), 2 ^ k := by
  have hc : ∀ k : Nat,
      (((plant_trunk p x y s).branches.filter fun b => b.depth == k).length)
        = if k ≤ (plant_trunk p x y s).current_depth then 2 ^ k else 0 := by
    intro k
    match k with
    | 0 => simp [plant_trunk]
    | k + 1 => simp [plant_trunk]
  have hl : (plant_trunk p x y s).branches.length
      = 2 ^ ((plant_trunk p x y s).current_depth + 1) - 1 := by
    simp [plant_trunk]
  have hd : (plant_trunk p x y s).current_depth + p.max_depth ≤ p.max_depth := by
    simp only [plant_trunk]
    omega
  have h0 := grow_levels_from T p u p.max_depth (plant_trunk p x y s) hc hl hd
  have hc0 : (plant_trunk p x y s).current_depth = 0 := rfl
  rw [hc0, Nat.zero_add] at h0
  refine ⟨h0.1, h0.2.1, ?_, ?_⟩
  · intro k hk
    rw [h0.2.2.1 k, if_pos hk]
  · rw [h0.2.2.2, sum_range_two_pow]

theorem C2_witness :
    (grow_levels sampleTrig sampleParams sampleU sampleParams.max_depth
        (plant_trunk sampleParams 600 700 initState)).2 = none ∧
    (((grow_levels sampleTrig sampleParams sampleU sampleParams.max_depth
        (plant_trunk sampleParams 600 700 initState)).1.branches.filter
        fun b => b.depth == 2).length) = 2 ^ 2 := by
  have h := C2_full_growth_count sampleTrig sampleParams sampleU 600 700 initState
  exact ⟨h.1, h.2.2.1 2 (by decide)⟩

end FractalTree

namespace FractalTree

theorem truncQ_intCast (n : Int) : truncQ (n : ℚ) = n := by
  unfold truncQ
  split <;> simp

theorem interpolate_color_self_zero (c : Color) : interpolate_color c c 0 = c := by
  obtain ⟨r, g, b⟩ := c
  simp [interpolate_color, truncQ_intCast]

/-- C5: for a valid configuration (non-empty palette, positive `max_depth`),
`get_branch_color` returns the trunk colour at depth 0, the last palette
entry at any depth at or above `max_depth`, and otherwise the spec's
interpolated colour: per-channel linear interpolation between the palette
entries at `floor(position)` and `min(floor(position)+1, size-1)` by the
fractional part of `position = (depth / maxDepth) * (size - 1)`, each channel
rounded towards zero. -/
theorem C5_color_model (p : Params) (h : p.leaf_colors ≠ [])
    (hm : 0 < p.max_depth) :
    get_branch_color p 0 = p.trunk_color ∧
    (∀ d : Nat, p.max_depth ≤ d →
      get_branch_color p d = p.leaf_colors.getLast h) ∧
    (∀ d : Nat, 0 < d → d < p.max_depth →
      get_branch_color p d = specColorAtMid p d) := by
  refine ⟨by simp [get_branch_color], ?_, ?_⟩
  · intro d hd
    have hd0 : ¬ d = 0 := by omega
    simp only [get_branch_color, if_neg hd0, if_pos hd]
    rw [List.getLastD_eq_getLast?, List.getLast?_eq_getLast _ h]
    simp
  · intro d hd0 hdm
    have hd0' : ¬ d = 0 := by omega
    have hnle : ¬ p.max_depth ≤ d := by omega
    have hlen : 1 ≤ p.leaf_colors.length := List.length_pos.mpr h
    have hpos : (0 : ℚ) ≤ ((d : ℚ) / (p.max_depth : ℚ))
        * ((p.leaf_colors.length : ℚ) - 1) := by
      apply mul_nonneg
      · exact div_nonneg (Nat.cast_nonneg d) (Nat.cast_nonneg _)
      · have h1 : (1 : ℚ) ≤ (p.leaf_colors.length : ℚ) := by exact_mod_cast hlen
        linarith
    simp only [get_branch_color, specColorAtMid, specLerpColor,
      interpolate_color, if_neg hd0', if_neg hnle, truncQ, if_pos hpos]

theorem C5_witness :
    get_branch_color sampleParams 0 = sampleParams.trunk_color ∧
    get_branch_color sampleParams 4
      = sampleParams.leaf_colors.getLast (by decide) ∧
    get_branch_color sampleParams 1 = specColorAtMid sampleParams 1 := by
  have h := C5_color_model sampleParams (by decide) (by decide)
  exact ⟨h.1, h.2.1 4 (by decide), h.2.2 1 (by decide) (by decide)⟩

/-- C9: with a single-entry palette, `get_branch_color` returns that single
colour at every depth at least 1, and the trunk colour at depth 0. -/
theorem C9_single_palette (p : Params) (c : Color) (h : p.leaf_colors = [c]) :
    get_branch_color p 0 = p.trunk_color ∧
    (∀ d : Nat, 1 ≤ d → get_branch_color p d = c) := by
  refine ⟨by simp [get_branch_color], ?_⟩
  intro d hd
  have hd0 : ¬ d = 0 := by omega
  by_cases hge : p.max_depth ≤ d
  · simp [get_branch_color, hd0, hge, h]
  · simp [get_branch_color, hd0, hge, h, truncQ, interpolate_color_self_zero]

theorem C9_witness :
    get_branch_color sampleParamsSingle 0 = sampleParamsSingle.trunk_color ∧
    get_branch_color sampleParamsSingle 2 = sampleLeaf2 := by
  have h := C9_single_palette sampleParamsSingle sampleLeaf2 rfl
  exact ⟨h.1, h.2 2 (by decide)⟩

end FractalTree

namespace FractalTree

theorem make_child_rand_zero (T : Trig) (p : Params) (hr : p.randomness = 0)
    (u u' : ℕ → ℚ) (k k' : ℕ) (parent : Branch) (off : ℚ) (cur nid : Nat) :
    make_child T p u k parent off cur nid
      = make_child T p u' k' parent off cur nid := by
  simp [make_child, hr]

theorem grow_new_branches_rand_zero (T : Trig) (p : Params) (cur : Nat)
    (hr : p.randomness = 0) (u u' : ℕ → ℚ) :
    ∀ (t : List Branch) (nid k : Nat),
      grow_new_branches T p u cur t nid k = grow_new_branches T p u' cur t nid k := by
  intro t
  induction t with
  | nil => intro nid k; rfl
  | cons parent rest ih =>
    intro nid k
    simp only [grow_new_branches]
    rw [ih (nid + 2) (k + 4),
      make_child_rand_zero T p hr u u' k k parent (-p.angle_variation) cur nid,
      make_child_rand_zero T p hr u u' (k + 2) (k + 2) parent p.angle_variation
        cur (nid + 1)]

theorem grow_one_level_rand_zero (T : Trig) (p : Params)
    (hr : p.randomness = 0) (u u' : ℕ → ℚ) (s : TreeState) :
    grow_one_level T p u s = grow_one_level T p u' s := by
  by_cases h1 : s.branches.length = 0
  · simp [grow_one_level, h1]
  · by_cases h2 : p.max_depth ≤ s.current_depth
    · simp [grow_one_level, h1, h2]
    · simp only [grow_one_level, if_neg h1, if_neg h2]
      rw [grow_new_branches_rand_zero T p s.current_depth hr u u']

theorem grow_full_aux_rand_zero (T : Trig) (p : Params)
    (hr : p.randomness = 0) (u u' : ℕ → ℚ) :
    ∀ (fuel : Nat) (s : TreeState),
      grow_full_aux T p u fuel s = grow_full_aux T p u' fuel s := by
  intro fuel
  induction fuel with
  | zero => intro s; rfl
  | succ fuel ih =>
    intro s
    simp only [grow_full_aux]
    by_cases h : s.current_depth < p.max_depth
    · rw [if_pos h, if_pos h, grow_one_level_rand_zero T p hr u u' s, ih]
    · rw [if_neg h, if_neg h]

theorem grow_full_tree_rand_zero (T : Trig) (p : Params)
    (hr : p.randomness = 0) (u u' : ℕ → ℚ) (s : TreeState) :
    grow_full_tree T p u s = grow_full_tree T p u' s := by
  by_cases h : s.branches.length = 0
  · simp [grow_full_tree, h]
  · simp only [grow_full_tree, if_neg h]
    rw [grow_full_aux_rand_zero T p hr u u']

theorem run_op_rand_zero (T : Trig) (p : Params) (hr : p.randomness = 0)
    (u u' : ℕ → ℚ) (s : TreeState) (op : Op) :
    run_op T p u s op = run_op T p u' s op := by
  cases op with
  | plant x y => rfl
  | grow => simp only [run_op]; rw [grow_one_level_rand_zero T p hr u u' s]
  | growFull => simp only [run_op]; rw [grow_full_tree_rand_zero T p hr u u' s]
  | reset => rfl

theorem run_ops_rand_zero (T : Trig) (p : Params) (hr : p.randomness = 0)
    (u u' : ℕ → ℚ) :
    ∀ (ops : List Op) (s : TreeState),
      run_ops T p u s ops = run_ops T p u' s ops := by
  intro ops
  induction ops with
  | nil => intro s; rfl
  | cons op ops ih =>
    intro s
    simp only [run_ops]
    rw [run_op_rand_zero T p hr u u' s op, ih]

/-- C8: with `randomness = 0` the engine is deterministic: running the same
call sequence from the freshly constructed engine with the same
configuration and trig backend but arbitrary (possibly different) random
sample streams produces identical branch collections. -/
theorem C8_deterministic_when_no_randomness (T : Trig) (p : Params)
    (hr : p.randomness = 0) (u1 u2 : ℕ → ℚ) (ops : List Op) :
    (run_ops T p u1 initState ops).branches
      = (run_ops T p u2 initState ops).branches := by
  rw [run_ops_rand_zero T p hr u1 u2 ops initState]

theorem C8_witness :
    (run_ops sampleTrig sampleParamsZero sampleU initState
        [Op.plant 600 700, Op.grow]).branches
      = (run_ops sampleTrig sampleParamsZero (fun _ => 0) initState
        [Op.plant 600 700, Op.grow]).branches :=
  C8_deterministic_when_no_randomness sampleTrig sampleParamsZero rfl sampleU
    (fun _ => 0) [Op.plant 600 700, Op.grow]

end FractalTree

namespace FractalTree

/-- The tree-shape invariant of the spec: an empty collection, or exactly one
trunk (depth 0, no parent) and every non-trunk branch linked to a present
parent one depth up. -/
def TreeInv (s : TreeState) : Prop :=
  s.branches = [] ∨
  (s.branches.countP (fun b => b.depth == 0 && b.parent_id == none) = 1 ∧
    ∀ b ∈ s.branches, ¬(b.depth = 0 ∧ b.parent_id = none) →
      ∃ pb ∈ s.branches, b.parent_id = some pb.id ∧ pb.depth + 1 = b.depth)

theorem TreeInv_init : TreeInv initState := Or.inl rfl

theorem TreeInv_reset (s : TreeState) : TreeInv (reset_tree s) := Or.inl rfl

theorem TreeInv_plant (p : Params) (x y : ℚ) (s : TreeState) :
    TreeInv (plant_trunk p x y s) := by
  refine Or.inr ⟨?_, ?_⟩
  · simp [plant_trunk, List.countP_cons, List.countP_nil]
  · intro b hb hnb
    simp only [plant_trunk, List.mem_singleton] at hb
    exfalso
    apply hnb
    rw [hb]
    exact ⟨rfl, rfl⟩

theorem TreeInv_grow (T : Trig) (p : Params) (u : ℕ → ℚ) (s : TreeState)
    (h : TreeInv s) : TreeInv (grow_one_level T p u s).1 := by
  by_cases h1 : s.branches = []
  · rw [grow_one_level_empty T p u s h1]
    exact h
  · by_cases h2 : p.max_depth ≤ s.current_depth
    · rw [grow_one_level_maxed T p u s h1 h2]
      exact h
    · have hgrow := grow_one_level_ok T p u s h1 (by omega)
      rcases h with h | h
      · exact absurd h h1
      have hb1 : (grow_one_level T p u s).1.branches
          = s.branches ++ (grow_new_branches T p u s.current_depth
              (s.branches.filter fun b => b.depth == s.current_depth)
              s.next_id s.rand_idx).1 := by
        rw [hgrow]
      refine Or.inr ⟨?_, ?_⟩
      · rw [hb1, List.countP_append]
        have hz : ((grow_new_branches T p u s.current_depth
            (s.branches.filter fun b => b.depth == s.current_depth)
            s.next_id s.rand_idx).1.countP
              (fun b => b.depth == 0 && b.parent_id == none)) = 0 := by
          apply List.countP_eq_zero.mpr
          intro b hb
          have hd := grow_new_branches_depth T p u s.current_depth
            (s.branches.filter fun b => b.depth == s.current_depth)
            s.next_id s.rand_idx b hb
          simp [hd]
        rw [hz, h.1]
      · intro b hb hnb
        rw [hb1] at hb
        rcases List.mem_append.mp hb with hmem | hmem
        · obtain ⟨pb, hpb, hpid, hpd⟩ := h.2 b hmem hnb
          exact ⟨pb, by rw [hb1]; exact List.mem_append_left _ hpb, hpid, hpd⟩
        · obtain ⟨pb, hpb, hpid⟩ := grow_new_branches_parent T p u
            s.current_depth
            (s.branches.filter fun b => b.depth == s.current_depth)
            s.next_id s.rand_idx b hmem
          have hpb2 := List.mem_filter.mp hpb
          have hpd : pb.depth = s.current_depth := by simpa using hpb2.2
          have hbd : b.depth = s.current_depth + 1 :=
            grow_new_branches_depth T p u s.current_depth
              (s.branches.filter fun b => b.depth == s.current_depth)
              s.next_id s.rand_idx b hmem
          exact ⟨pb, by rw [hb1]; exact List.mem_append_left _ hpb2.1, hpid,
            by omega⟩

theorem TreeInv_aux (T : Trig) (p : Params) (u : ℕ → ℚ) :
    ∀ (fuel : Nat) (s : TreeState), TreeInv s →
      TreeInv (grow_full_aux T p u fuel s) := by
  intro fuel
  induction fuel with
  | zero => intro s h; exact h
  | succ fuel ih =>
    intro s h
    simp only [grow_full_aux]
    by_cases hc : s.current_depth < p.max_depth
    · rw [if_pos hc]
      exact ih _ (TreeInv_grow T p u s h)
    · rw [if_neg hc]
      exact h

theorem TreeInv_growFull (T : Trig) (p : Params) (u : ℕ → ℚ) (s : TreeState)
    (h : TreeInv s) : TreeInv (grow_full_tree T p u s).1 := by
  by_cases h1 : s.branches.length = 0
  · simp only [grow_full_tree, if_pos h1]
    exact h
  · simp only [grow_full_tree, if_neg h1]
    exact TreeInv_aux T p u _ s h

theorem TreeInv_reachable (s : TreeState) (h : Reachable s) : TreeInv s := by
  induction h with
  | init => exact TreeInv_init
  | plant T p u x y _ ih => exact TreeInv_plant p x y _
  | grow T p u _ ih => exact TreeInv_grow T p u _ ih
  | growFull T p u _ ih => exact TreeInv_growFull T p u _ ih
  | reset _ ih => exact TreeInv_reset _

/-- C7: in every reachable state with a non-empty branch collection, exactly
one branch is a trunk (depth 0 and no parent), and every other branch's
parent id refers to a branch present in the collection whose depth is
exactly one less. -/
theorem C7_tree_structure (s : TreeState) (hr : Reachable s)
    (hne : s.branches ≠ []) :
    s.branches.countP (fun b => b.depth == 0 && b.parent_id == none) = 1 ∧
    ∀ b ∈ s.branches, ¬(b.depth = 0 ∧ b.parent_id = none) →
      ∃ pb ∈ s.branches, b.parent_id = some pb.id ∧ pb.depth + 1 = b.depth := by
  rcases TreeInv_reachable s hr with h | h
  · exact absurd h hne
  · exact h

theorem C7_witness :
    (plant_trunk sampleParams 600 700 initState).branches.countP
      (fun b => b.depth == 0 && b.parent_id == none) = 1 :=
  (C7_tree_structure _
    (Reachable.plant sampleTrig sampleParams sampleU 600 700 Reachable.init)
    (by decide)).1

/-- The id-allocation invariant: ids coincide with list positions and the
next-id counter equals the collection length. -/
def IdInv (s : TreeState) : Prop :=
  (∀ i : Nat, i < s.branches.length → (s.branches.getD i default).id = i) ∧
  s.next_id = s.branches.length

theorem IdInv_init : IdInv initState := by
  constructor
  · intro i hi
    simp [initState] at hi
  · rfl

theorem IdInv_reset (s : TreeState) : IdInv (reset_tree s) := by
  constructor
  · intro i hi
    simp [reset_tree] at hi
  · rfl

theorem IdInv_plant (p : Params) (x y : ℚ) (s : TreeState) :
    IdInv (plant_trunk p x y s) := by
  constructor
  · intro i hi
    have hlen : (plant_trunk p x y s).branches.length = 1 := rfl
    rw [hlen] at hi
    have : i = 0 := by omega
    subst this
    rfl
  · rfl

theorem IdInv_grow (T : Trig) (p : Params) (u : ℕ → ℚ) (s : TreeState)
    (h : IdInv s) : IdInv (grow_one_level T p u s).1 := by
  by_cases h1 : s.branches = []
  · rw [grow_one_level_empty T p u s h1]
    exact h
  · by_cases h2 : p.max_depth ≤ s.current_depth
    · rw [grow_one_level_maxed T p u s h1 h2]
      exact h
    · have hgrow := grow_one_level_ok T p u s h1 (by omega)
      have hb1 : (grow_one_level T p u s).1.branches
          = s.branches ++ (grow_new_branches T p u s.current_depth
              (s.branches.filter fun b => b.depth == s.current_depth)
              s.next_id s.rand_idx).1 := by
        rw [hgrow]
      have hn1 : (grow_one_level T p u s).1.next_id
          = (grow_new_branches T p u s.current_depth
              (s.branches.filter fun b => b.depth == s.current_depth)
              s.next_id s.rand_idx).2.1 := by
        rw [hgrow]
      have hcnt := grow_new_branches_counters T p u s.current_depth
        (s.branches.filter fun b => b.depth == s.current_depth)
        s.next_id s.rand_idx
      have hlen := grow_new_branches_length T p u s.current_depth
        (s.branches.filter fun b => b.depth == s.current_depth)
        s.next_id s.rand_idx
      constructor
      · intro i hi
        rw [hb1] at hi ⊢
        rw [List.length_append, hlen] at hi
        by_cases hlt : i < s.branches.length
        · rw [getD_append_left _ _ _ _ hlt]
          exact h.1 i hlt
        · have e : i = s.branches.length + (i - s.branches.length) := by omega
          rw [e, getD_append_len]
          rw [grow_new_branches_getD_id T p u s.current_depth
            (s.branches.filter fun b => b.depth == s.current_depth)
            s.next_id s.rand_idx _ (by omega)]
          rw [h.2]
      · rw [hn1, hcnt.1, hb1, List.length_append, hlen, h.2]

theorem IdInv_aux (T : Trig) (p : Params) (u : ℕ → ℚ) :
    ∀ (fuel : Nat) (s : TreeState), IdInv s →
      IdInv (grow_full_aux T p u fuel s) := by
  intro fuel
  induction fuel with
  | zero => intro s h; exact h
  | succ fuel ih =>
    intro s h
    simp only [grow_full_aux]
    by_cases hc : s.current_depth < p.max_depth
    · rw [if_pos hc]
      exact ih _ (IdInv_grow T p u s h)
    · rw [if_neg hc]
      exact h

theorem IdInv_growFull (T : Trig) (p : Params) (u : ℕ → ℚ) (s : TreeState)
    (h : IdInv s) : IdInv (grow_full_tree T p u s).1 := by
  by_cases h1 : s.branches.length = 0
  · simp only [grow_full_tree, if_pos h1]
    exact h
  · simp only [grow_full_tree, if_neg h1]
    exact IdInv_aux T p u _ s h

theorem IdInv_reachable (s : TreeState) (h : Reachable s) : IdInv s := by
  induction h with
  | init => exact IdInv_init
  | plant T p u x y _ ih => exact IdInv_plant p x y _
  | grow T p u _ ih => exact IdInv_grow T p u _ ih
  | growFull T p u _ ih => exact IdInv_growFull T p u _ ih
  | reset _ ih => exact IdInv_reset _

/-- C10: in every reachable state, the branch stored at any position `i` of
the collection has id `i`, and the next-id counter equals the collection
length; all engine operations preserve this. -/
theorem C10_ids_match_positions (s : TreeState) (hr : Reachable s) :
    (∀ i : Nat, i < s.branches.length →
      (s.branches.getD i default).id = i) ∧
    s.next_id = s.branches.length :=
  IdInv_reachable s hr

theorem C10_witness :
    ((plant_trunk sampleParams 620 710 initState).branches.getD 0 default).id
        = 0 ∧
    (plant_trunk sampleParams 620 710 initState).next_id
        = (plant_trunk sampleParams 620 710 initState).branches.length := by
  have h := C10_ids_match_positions _
    (Reachable.plant sampleTrig sampleParams sampleU 620 710 Reachable.init)
  exact ⟨h.1 0 (by decide), h.2⟩

end FractalTree
